import Mathlib

/-!
Verification of the orchestration core of the payment-gateway service.

Each definition is a shallow embedding of one function of the TypeScript
source: asynchronous functions with ambient database / queue effects become
pure functions that thread an explicit state value, thrown exceptions become
`Except` results, and JavaScript numbers holding monetary amounts become
rationals.  The theorems at the end of the file settle the frozen claims
about the specification.
-/

namespace PaymentGateway

/-!
## Saga orchestrator — `saga.service.ts`

A step carries a name, a forward action that transforms the context and may
throw, and an optional compensation.  `SagaOrchestrator.execute` runs the
steps in order; on the first thrown error it runs the compensations of the
already-completed steps in reverse order, swallowing any error a
compensation itself throws, and returns a `SagaResult`.

The embedding makes the compensation sweep observable: `sagaExecute` returns,
next to the `SagaResult`, the list of compensation invocations in the order
they were performed, each paired with the `Except` outcome the compensation
produced (the source logs and discards that outcome).
-/

structure SagaStep (Ctx : Type) (Err : Type) where
  name : String
  execute : Ctx → Except Err Ctx
  compensate : Option (Ctx → Except Err Unit)

structure SagaResult (Ctx : Type) (Err : Type) where
  success : Bool
  context : Ctx
  error : Option Err
  failedStep : Option String
  completedSteps : List String

/-- The compensation sweep of `SagaOrchestrator.execute`: iterate over the
completed steps in reverse order, invoking each step's compensation (when it
has one) on the context at the time of failure.  The `try/catch` of the
source swallows a compensation's error, so the sweep records every outcome
and never stops early. -/
def compensationSweep {Ctx Err : Type} (completed : List (SagaStep Ctx Err))
    (ctx : Ctx) : List (String × Except Err Unit) :=
  completed.reverse.filterMap fun s =>
    s.compensate.map fun c => (s.name, c ctx)

/-- Main loop of `SagaOrchestrator.execute`, with the completed steps
accumulated in execution order. -/
def sagaExecuteAux {Ctx Err : Type} (steps : List (SagaStep Ctx Err))
    (completed : List (SagaStep Ctx Err)) (ctx : Ctx) :
    SagaResult Ctx Err × List (String × Except Err Unit) :=
  match steps with
  | [] =>
      ({ success := true, context := ctx, error := none, failedStep := none,
         completedSteps := completed.map (fun s => s.name) }, [])
  | step :: rest =>
      match step.execute ctx with
      | .ok ctx' => sagaExecuteAux rest (completed ++ [step]) ctx'
      | .error e =>
          ({ success := false, context := ctx, error := some e,
             failedStep := some step.name,
             completedSteps := completed.map (fun s => s.name) },
           compensationSweep completed ctx)

/-- Embedding of `SagaOrchestrator.execute`:  run the steps from the initial context with
no step completed yet. -/
def sagaExecute {Ctx Err : Type} (steps : List (SagaStep Ctx Err)) (ctx : Ctx) :
    SagaResult Ctx Err × List (String × Except Err Unit) :=
  sagaExecuteAux steps [] ctx

/-- Forward-only execution of a list of steps (no compensation): the
reference semantics a prefix of a saga run follows while no step throws. -/
def runSteps {Ctx Err : Type} : List (SagaStep Ctx Err) → Ctx → Except Err Ctx
  | [], ctx => .ok ctx
  | s :: rest, ctx =>
      match s.execute ctx with
      | .ok ctx' => runSteps rest ctx'
      | .error e => .error e

/-!
## Payment statuses and the status-transition table — `payment.service.ts`
-/

inductive PaymentStatus
  | pending
  | processing
  | completed
  | failed
  | refunded
  | partially_refunded
deriving DecidableEq, Repr, Fintype

/-- Rendering used when building `payment.<status>` webhook event types. -/
def PaymentStatus.toStr : PaymentStatus → String
  | .pending => "pending"
  | .processing => "processing"
  | .completed => "completed"
  | .failed => "failed"
  | .refunded => "refunded"
  | .partially_refunded => "partially_refunded"

/-- The `validTransitions` record of `PaymentService.isValidStatusTransition`. -/
def validTransitions : PaymentStatus → List PaymentStatus
  | .pending => [.processing, .completed, .failed]
  | .processing => [.completed, .failed]
  | .completed => [.refunded, .partially_refunded]
  | .failed => []
  | .refunded => []
  | .partially_refunded => [.refunded]

/-- Embedding of `PaymentService.isValidStatusTransition`. -/
def isValidStatusTransition (currentStatus newStatus : PaymentStatus) : Bool :=
  (validTransitions currentStatus).contains newStatus

/-- The payment row as far as webhook reconciliation observes it. -/
structure PaymentRow where
  status : PaymentStatus
  provider_transaction_id : Option String
  webhook_url : Option String
deriving DecidableEq, Repr

/-- The state touched by `PaymentService.updatePaymentFromWebhook`: the locked
payment row, its append-only transaction log, the audit log, and the merchant
webhook queue.  Transaction rows are identified by the status they record and
audits by the `(old, new)` status pair. -/
structure ReconciliationState where
  payment : PaymentRow
  transactions : List PaymentStatus
  audits : List (PaymentStatus × PaymentStatus)
  queuedEvents : List String
deriving DecidableEq, Repr

/-- Embedding of `PaymentService.updatePaymentFromWebhook`, after the row has been found
and locked.  An invalid transition is logged and ignored (the state is
returned unchanged); a valid one updates the status, appends a transaction
row, records an audit, and queues a `payment.<status>` merchant webhook when
the payment carries a webhook URL (`queueWebhook`'s own URL validation is
assumed to pass). -/
def updatePaymentFromWebhook (newStatus : PaymentStatus)
    (st : ReconciliationState) : ReconciliationState :=
  if isValidStatusTransition st.payment.status newStatus then
    { payment := { st.payment with status := newStatus },
      transactions := st.transactions ++ [newStatus],
      audits := st.audits ++ [(st.payment.status, newStatus)],
      queuedEvents := st.queuedEvents ++
        (match st.payment.webhook_url with
         | some _ => ["payment." ++ newStatus.toStr]
         | none => []) }
  else
    st

/-!
## Refund service — `refund.service.ts`

Monetary amounts are rationals (the decimal columns hold exact 4-digit
decimals; the service compares them numerically).  `createRefund` runs under
a row lock inside one SQL transaction: a thrown validation error rolls the
transaction back, so the `Except.error` branch below leaves no trace in the
state.  The provider call is abstracted by a `RefundProviderOutcome`: a
normal response (accepted or declined) or a thrown error (the inner
`try/catch` of the source turns the latter into a failed refund that still
commits).
-/

inductive RefundStatus
  | pending
  | completed
  | failed
deriving DecidableEq, Repr

structure RefundRow where
  amount : ℚ
  status : RefundStatus
deriving DecidableEq, Repr

/-- State of one payment together with its refund rows and transaction log. -/
structure RefundPaymentState where
  amount : ℚ
  status : PaymentStatus
  refunds : List RefundRow
  transactions : List PaymentStatus
deriving DecidableEq, Repr

/-- Embedding of `getTotalRefundedAmount`: sum of the amounts of completed refunds. -/
def sumCompletedRefunds (refunds : List RefundRow) : ℚ :=
  ((refunds.filter fun r => r.status == RefundStatus.completed).map
    fun r => r.amount).sum

/-- Embedding of `getPendingRefundsAmount`: sum of the amounts of pending refunds. -/
def sumPendingRefunds (refunds : List RefundRow) : ℚ :=
  ((refunds.filter fun r => r.status == RefundStatus.pending).map
    fun r => r.amount).sum

/-- Outcome of the provider's `processRefund` call. -/
inductive RefundProviderOutcome
  | accepted
  | declined (errorMessage : Option String)
  | thrown (message : String)
deriving DecidableEq, Repr

/-- Embedding of `updateRefund` applied to the refund row just inserted (the last row). -/
def setLastRefundStatus : List RefundRow → RefundStatus → List RefundRow
  | [], _ => []
  | [r], s => [{ r with status := s }]
  | r :: rest, s => r :: setLastRefundStatus rest s

/-- The caller-visible part of `RefundResult`. -/
structure RefundCallResult where
  refundStatus : RefundStatus
  paymentStatus : PaymentStatus
  success : Bool
  error : Option String
deriving DecidableEq, Repr

/-- Embedding of `RefundService.createRefund` on the locked payment `st`.  Validation
errors are thrown (the enclosing transaction rolls back, inserting nothing);
otherwise a pending refund row is inserted and then moved to `completed` or
`failed` according to the provider outcome, with the payment status updated
on success exactly as the source computes it. -/
def createRefund (amount : ℚ) (outcome : RefundProviderOutcome)
    (st : RefundPaymentState) :
    Except String (RefundPaymentState × RefundCallResult) :=
  if ¬ (st.status = .completed ∨ st.status = .partially_refunded) then
    .error "Cannot refund payment with this status"
  else if amount ≤ 0 then
    .error "Refund amount must be greater than 0"
  else
    let paymentAmount := st.amount
    let totalRefunded := sumCompletedRefunds st.refunds
    let pendingRefunds := sumPendingRefunds st.refunds
    let availableForRefund := paymentAmount - totalRefunded - pendingRefunds
    if availableForRefund < amount then
      .error "Refund amount exceeds available amount"
    else
      let refundsInserted := st.refunds ++ [⟨amount, .pending⟩]
      match outcome with
      | .accepted =>
          let newTotalRefunded := totalRefunded + amount
          let newPaymentStatus : PaymentStatus :=
            if paymentAmount ≤ newTotalRefunded then .refunded
            else .partially_refunded
          .ok ({ amount := st.amount,
                 status := newPaymentStatus,
                 refunds := setLastRefundStatus refundsInserted .completed,
                 transactions := st.transactions ++ [newPaymentStatus] },
               { refundStatus := .completed, paymentStatus := newPaymentStatus,
                 success := true, error := none })
      | .declined msg =>
          .ok ({ st with refunds := setLastRefundStatus refundsInserted .failed },
               { refundStatus := .failed, paymentStatus := st.status,
                 success := false,
                 error := some (msg.getD "Refund failed") })
      | .thrown message =>
          .ok ({ st with refunds := setLastRefundStatus refundsInserted .failed },
               { refundStatus := .failed, paymentStatus := st.status,
                 success := false, error := some message })

/-- States reachable by a sequence of `createRefund` calls from a freshly
completed payment with a positive amount and no refunds.  A call that throws
a validation error rolls back and leaves the state unchanged, so only `.ok`
transitions appear. -/
inductive RefundReachable : RefundPaymentState → Prop
  | init (amount : ℚ) (tx : List PaymentStatus) (hpos : 0 < amount) :
      RefundReachable ⟨amount, .completed, [], tx⟩
  | step (st st' : RefundPaymentState) (amount : ℚ)
      (outcome : RefundProviderOutcome) (res : RefundCallResult) :
      RefundReachable st →
      createRefund amount outcome st = .ok (st', res) →
      RefundReachable st'

/-!
## Idempotency engine — `idempotency.service.ts` and `middleware/idempotency.ts`

The two storage tiers for one `(key, merchant)` pair are modelled as two
optional records: the Redis entry (absent once its TTL has elapsed, so no
expiry check appears on that tier) and the PostgreSQL row (fetched with a
`expires_at > NOW()` filter).  Response bodies are the serialized JSON the
service stores.  `check` is read-only here: the Redis back-fill it performs
on a PostgreSQL hit does not change the response it returns.
-/

inductive IdemStatus
  | processing
  | completed
deriving DecidableEq, Repr

structure IdemRecord where
  request_hash : String
  status : IdemStatus
  response : Option String
  status_code : Option Nat
  expires_at : Nat
deriving DecidableEq, Repr

structure IdemCheckResult where
  recordExists : Bool
  isProcessing : Bool
  response : Option String
  statusCode : Option Nat
deriving DecidableEq, Repr

structure IdemState where
  cache : Option IdemRecord
  db : Option IdemRecord
deriving DecidableEq, Repr

/-- JavaScript `record.status_code || undefined`: `null` and `0` are falsy.
(The stored body is a JSON object, which is always truthy, so the matching
`record.response || undefined` is the identity on the model's option.) -/
def numOrUndefined (statusCode : Option Nat) : Option Nat :=
  if statusCode = some 0 then none else statusCode

/-- The message of `IdempotencyConflictError`. -/
def idempotencyConflictMessage : String :=
  "Idempotency key has already been used with different request parameters"

/-- Embedding of `IdempotencyService.check`: consult Redis first, then PostgreSQL
(ignoring expired rows); fail with a conflict when the stored fingerprint
differs from the submitted one. -/
def idempotencyCheck (now : Nat) (requestHash : String) (st : IdemState) :
    Except String IdemCheckResult :=
  match st.cache with
  | some record =>
      if record.request_hash ≠ requestHash then
        .error idempotencyConflictMessage
      else if record.status = .processing then
        .ok ⟨true, true, none, none⟩
      else
        .ok ⟨true, false, record.response, numOrUndefined record.status_code⟩
  | none =>
      match st.db with
      | some record =>
          if record.expires_at ≤ now then
            .ok ⟨false, false, none, none⟩
          else if record.request_hash ≠ requestHash then
            .error idempotencyConflictMessage
          else if record.status = .processing then
            .ok ⟨true, true, none, none⟩
          else
            .ok ⟨true, false, record.response, numOrUndefined record.status_code⟩
      | none => .ok ⟨false, false, none, none⟩

/-- What the middleware does with the request: answer immediately with a
status code and body, or hand the request on to the route handler (after
`startProcessing`). -/
inductive MiddlewareAction
  | respond (code : Nat) (body : Option String)
  | proceed
deriving DecidableEq, Repr

def processingConflictMessage : String :=
  "A request with this idempotency key is currently being processed"

/-- Embedding of `idempotencyMiddleware` for a mutating request that carries an
idempotency key: a conflict or an in-flight record answers 409 before any
handler work; a completed record replays the stored response; otherwise the
handler runs. -/
def idempotencyMiddleware (now : Nat) (requestHash : String) (st : IdemState) :
    MiddlewareAction :=
  match idempotencyCheck now requestHash st with
  | .error e => .respond 409 (some e)
  | .ok result =>
      if result.recordExists then
        if result.isProcessing then
          .respond 409 (some processingConflictMessage)
        else
          .respond (result.statusCode.getD 200) result.response
      else
        .proceed

/-- The record the two-tier store holds for the pair, the cache tier taking
precedence and an expired database row counting as absent. -/
def storedRecord (now : Nat) (st : IdemState) : Option IdemRecord :=
  match st.cache with
  | some r => some r
  | none =>
      match st.db with
      | some r => if now < r.expires_at then some r else none
      | none => none

/-!
## Webhook delivery — `webhook.service.ts`

Rows are the `webhook_events` columns the retry pipeline reads and writes.
Time is milliseconds since the epoch.  The HTTP `fetch` of one delivery is
abstracted by a `DeliveryOutcome`: a 2xx response, a non-2xx response, or a
transport error / timeout (both of the latter reach `handleFailure`).
-/

inductive WebhookStatus
  | pending
  | sent
  | failed
deriving DecidableEq, Repr

structure WebhookEventRow where
  status : WebhookStatus
  attempts : Nat
  max_attempts : Nat
  next_retry_at : Option Nat
  last_error : Option String
  sent_at : Option Nat
deriving DecidableEq, Repr

/-- Default of `config.webhook.retryDelays`: `60000,300000,900000,3600000`. -/
def defaultRetryDelays : List Nat := [60000, 300000, 900000, 3600000]

/-- Default of `config.webhook.maxRetries`. -/
def defaultMaxRetries : Nat := 5

/-- The row `queueWebhook` inserts (the table defaults, per the data model,
start the event with `status = pending` and `attempts = 0`). -/
def queueWebhookRow (maxAttempts : Nat) : WebhookEventRow :=
  { status := .pending, attempts := 0, max_attempts := maxAttempts,
    next_retry_at := none, last_error := none, sent_at := none }

/-- Embedding of `WebhookService.handleFailure`: bump the attempt counter; at
`max_attempts` mark the event permanently failed and schedule nothing,
otherwise pick the delay from the retry schedule (clamped to its last entry;
the JavaScript `|| 3600000` replaces a missing or zero entry), stamp
`next_retry_at`, and republish with that delay. -/
def handleFailure (retryDelays : List Nat) (now : Nat) (errorMessage : String)
    (w : WebhookEventRow) : WebhookEventRow × Option Nat :=
  let newAttempts := w.attempts + 1
  if w.max_attempts ≤ newAttempts then
    ({ w with status := .failed, attempts := newAttempts,
              last_error := some errorMessage }, none)
  else
    let indexed := retryDelays.getD (min (newAttempts - 1) (retryDelays.length - 1)) 0
    let delay := if indexed = 0 then 3600000 else indexed
    ({ w with attempts := newAttempts, last_error := some errorMessage,
              next_retry_at := some (now + delay) }, some delay)

/-- Embedding of `WebhookService.markAsSent`: set the status and `sent_at`; the attempt
counter is not touched. -/
def markAsSent (now : Nat) (w : WebhookEventRow) : WebhookEventRow :=
  { w with status := .sent, sent_at := some now }

/-- One HTTP delivery attempt as the service observes it. -/
inductive DeliveryOutcome
  | delivered
  | httpError (code : Nat) (body : String)
  | thrown (message : String)
deriving DecidableEq, Repr

/-- What one `processWebhook` call did: its boolean return value, the row it
left behind, whether it performed an HTTP delivery at all, and the republish
delay it scheduled (if any). -/
structure ProcessWebhookOutcome where
  result : Bool
  row : WebhookEventRow
  delivered : Bool
  republishDelay : Option Nat
deriving DecidableEq, Repr

/-- Embedding of `WebhookService.processWebhook` on a loaded row: an already-sent event is
acknowledged without delivery, a permanently failed one is never retried;
otherwise one delivery is attempted and a 2xx marks the event sent while
anything else goes through `handleFailure`. -/
def processWebhook (retryDelays : List Nat) (now : Nat)
    (outcome : DeliveryOutcome) (w : WebhookEventRow) : ProcessWebhookOutcome :=
  if w.status = .sent then ⟨true, w, false, none⟩
  else if w.status = .failed then ⟨false, w, false, none⟩
  else
    match outcome with
    | .delivered => ⟨true, markAsSent now w, true, none⟩
    | .httpError code body =>
        let fail := handleFailure retryDelays now
          ("HTTP " ++ toString code ++ ": " ++ body) w
        ⟨false, fail.1, true, fail.2⟩
    | .thrown message =>
        let fail := handleFailure retryDelays now message w
        ⟨false, fail.1, true, fail.2⟩

/-- The inductive invariant of the delivery pipeline: the attempt counter
never exceeds `max_attempts`, and an event still eligible for delivery
(`pending`) has spare attempts. -/
def WebhookInv (w : WebhookEventRow) : Prop :=
  w.attempts ≤ w.max_attempts ∧
  (w.status = .pending → w.attempts < w.max_attempts)

instance (w : WebhookEventRow) : Decidable (WebhookInv w) := by
  unfold WebhookInv
  infer_instance

/-!
## SSRF-safe URL validation — `webhook.service.ts`

URLs are modelled after parsing: the WHATWG parser yields a protocol (with
trailing colon) and a hostname; a string that does not parse is `none`.  The
deny-list and the pattern checks of `isPrivateIP` are literal translations;
the `i` flags on the IPv6 regexes are immaterial in `validateWebhookUrl`
because the hostname is lowercased before the call, so the embedding applies
the patterns to the already-lowercased hostname.

String primitives (lowercasing, prefix and suffix tests) are defined
structurally on the character list of the string, with the standard
semantics, so that concrete URLs evaluate inside the kernel.
-/

/-- Lowercase a string (JavaScript `toLowerCase` on hostnames). -/
def strToLower (s : String) : String := ⟨s.data.map Char.toLower⟩

/-- Prefix test (an anchored `^lit` regex or `String.startsWith`). -/
def strStartsWith (s pre : String) : Bool := pre.data.isPrefixOf s.data

/-- Suffix test (`String.endsWith`). -/
def strEndsWith (s suf : String) : Bool := suf.data.isSuffixOf s.data

structure ParsedUrl where
  protocol : String
  hostname : String
deriving DecidableEq, Repr

/-- The module-level deny-list of hosts. -/
def BLOCKED_HOSTS : List String :=
  ["localhost", "127.0.0.1", "0.0.0.0", "::1", "[::1]",
   "metadata.google.internal", "169.254.169.254", "metadata.google.internal."]

/-- Embedding of `isPrivateIP`: the seven anchored patterns of the source,
applied to a lowercased hostname.  The second pattern matches `172.` followed
by a two-digit number 16–31 and a dot. -/
def isPrivateIP (hostname : String) : Bool :=
  strStartsWith hostname "10." ||
  ((List.range 16).any fun i =>
    strStartsWith hostname ("172." ++ toString (16 + i) ++ ".")) ||
  strStartsWith hostname "192.168." ||
  strStartsWith hostname "169.254." ||
  strStartsWith hostname "fc00:" ||
  strStartsWith hostname "fd00:" ||
  strStartsWith hostname "fe80:"

/-- Protocols accepted by `validateWebhookUrl` (module-level
`ALLOWED_PROTOCOLS`). -/
def allowedProtocols (isProduction : Bool) : List String :=
  if isProduction then ["https:"] else ["https:", "http:"]

structure UrlValidation where
  valid : Bool
  error : Option String
deriving DecidableEq, Repr

/-- Embedding of `validateWebhookUrl`. -/
def validateWebhookUrl (isProduction : Bool) (url : Option ParsedUrl) :
    UrlValidation :=
  match url with
  | none => ⟨false, some "Invalid URL format"⟩
  | some u =>
      if ¬ (allowedProtocols isProduction).contains u.protocol then
        ⟨false, some ("Invalid protocol: " ++ u.protocol)⟩
      else
        let hostname := strToLower u.hostname
        if BLOCKED_HOSTS.contains hostname then
          ⟨false, some ("Blocked host: " ++ hostname)⟩
        else if isPrivateIP hostname then
          ⟨false, some ("Private IP addresses not allowed: " ++ hostname)⟩
        else if strEndsWith hostname ".internal" ||
            strEndsWith hostname ".local" then
          ⟨false, some ("Internal domains not allowed: " ++ hostname)⟩
        else
          ⟨true, none⟩

/-- Embedding of `WebhookService.queueWebhook`, reduced to what the claims
observe: an invalid URL throws `WebhookUrlValidationError` before anything is
persisted; a valid one inserts the event row and publishes it. -/
def queueWebhook (isProduction : Bool) (maxAttempts : Nat)
    (url : Option ParsedUrl) : Except String WebhookEventRow :=
  let v := validateWebhookUrl isProduction url
  if v.valid then .ok (queueWebhookRow maxAttempts)
  else .error (v.error.getD "Invalid webhook URL")

/-- Numeric value of one hexadecimal digit. -/
def hexDigitVal (c : Char) : Option Nat :=
  if 48 ≤ c.toNat ∧ c.toNat ≤ 57 then some (c.toNat - 48)
  else if 97 ≤ c.toNat ∧ c.toNat ≤ 102 then some (c.toNat - 97 + 10)
  else if 65 ≤ c.toNat ∧ c.toNat ≤ 70 then some (c.toNat - 65 + 10)
  else none

/-- Value of the first hextet of an IPv6 literal written with an explicit
first group (for example `fd12:3456::1`), or `none` when the string does not
begin with a 1–4 digit hex group followed by a colon. -/
def firstHextet (hostname : String) : Option Nat :=
  if hostname.data.contains ':' then
    let group := hostname.data.takeWhile (fun c => c != ':')
    if group.length = 0 ∨ 4 < group.length then none
    else
      group.foldl (fun acc c =>
        match acc, hexDigitVal c with
        | some a, some v => some (a * 16 + v)
        | _, _ => none) (some 0)
  else none

/-- Modelled from the spec: membership of an IPv6 literal in the ranges the
specification names, `fc00::/7` (first hextet `fc00`–`fdff`) or `fe80::/10`
(first hextet `fe80`–`febf`).  This is the spec-side predicate used to
compare the claimed coverage with what `isPrivateIP` actually checks. -/
def specIPv6PrivateOrLinkLocal (hostname : String) : Bool :=
  match firstHextet hostname with
  | some n => (0xfc00 ≤ n && n ≤ 0xfdff) || (0xfe80 ≤ n && n ≤ 0xfebf)
  | none => false

/-!
## Payment service charge saga — `payment.service.ts`

The three steps of `createPaymentSaga` mutate both the saga context and the
ambient state (database rows, audit log, webhook queue), and the compensation
of the first step writes to the database, so the generic context-only
orchestrator signature cannot carry them; the runner below inlines
`SagaOrchestrator.execute` for this concrete step list, threading an explicit
`PayWorld`.  Only the first step has a compensation, exactly as in the
source.  The provider call of the second step is abstracted by a
`ProviderCall`: a normal response (of any success flag) or a thrown error
(for example a `CircuitOpen` rejection).
-/

inductive ProviderPayStatus
  | pending
  | completed
  | failed
deriving DecidableEq, Repr

/-- The provider's `PaymentResponse` as the saga consumes it. -/
structure ProviderResponse where
  success : Bool
  status : ProviderPayStatus
  transactionId : String
  errorMessage : Option String
deriving DecidableEq, Repr

/-- Status mapping of the `process_with_provider` step:
`success && status==completed → completed`; `success && other → pending`;
`!success → failed`. -/
def mapProviderStatus (r : ProviderResponse) : PaymentStatus :=
  if r.success then
    (if r.status = .completed then .completed else .pending)
  else .failed

inductive ProviderCall
  | responds (r : ProviderResponse)
  | throws (message : String)
deriving DecidableEq, Repr

/-- The payment row as the charge saga reads and writes it. -/
structure PaymentRecord where
  status : PaymentStatus
  provider_transaction_id : Option String
  webhook_url : Option ParsedUrl
deriving DecidableEq, Repr

/-- Ambient state of one `processPayment` request: the payment row it
creates, its transaction log, the audit entries, and the queued merchant
webhook event types. -/
structure PayWorld where
  payment : Option PaymentRecord
  transactions : List PaymentStatus
  audits : List String
  queuedEvents : List String
deriving DecidableEq, Repr

def emptyPayWorld : PayWorld := ⟨none, [], [], []⟩

/-- The saga context (`PaymentSagaContext.payment`). -/
structure PayCtx where
  payment : Option PaymentRecord
deriving DecidableEq, Repr

/-- The validated input fields the three steps consume. -/
structure PayInput where
  webhook_url : Option ParsedUrl
deriving DecidableEq, Repr

/-- Step `create_payment_record`: insert the pending payment, its initial
transaction row and the `payment.created` audit.  The step cannot throw. -/
def paySagaStep1 (input : PayInput) (w : PayWorld) : PayCtx × PayWorld :=
  let payment : PaymentRecord :=
    { status := .pending, provider_transaction_id := none,
      webhook_url := input.webhook_url }
  (⟨some payment⟩,
   { payment := some payment,
     transactions := w.transactions ++ [.pending],
     audits := w.audits ++ ["payment.created"],
     queuedEvents := w.queuedEvents })

/-- Compensation of `create_payment_record`: when the context carries a
payment, force its database status to `failed` and audit the change. -/
def paySagaStep1Compensate (ctx : PayCtx) (w : PayWorld) : PayWorld :=
  match ctx.payment with
  | some _ =>
      { w with
        payment := w.payment.map (fun p => { p with status := .failed }),
        audits := w.audits ++ ["payment.status_changed"] }
  | none => w

/-- Step `process_with_provider`: flip the payment to `processing` with a
transaction row, call the provider, map the response status, update the
payment with the provider transaction id and new status, append a
transaction row and audit the change.  A thrown provider error (after the
`processing` flip) propagates out of the step. -/
def paySagaStep2 (call : ProviderCall) (ctx : PayCtx) (w : PayWorld) :
    Except String (PayCtx × PayWorld) :=
  match ctx.payment with
  | none => .error "Payment not found in context"
  | some payment =>
      let w1 : PayWorld :=
        { w with
          payment := w.payment.map (fun p => { p with status := .processing }),
          transactions := w.transactions ++ [.processing] }
      match call with
      | .throws message => .error message
      | .responds r =>
          let newStatus := mapProviderStatus r
          let updated : PaymentRecord :=
            { payment with status := newStatus,
                           provider_transaction_id := some r.transactionId }
          .ok (⟨some updated⟩,
               { w1 with
                 payment := some updated,
                 transactions := w1.transactions ++ [newStatus],
                 audits := w1.audits ++ ["payment.status_changed"] })

/-- Step `send_webhook`: when the payment has a webhook URL, queue one
`payment.<status>` event; `queueWebhook` throws on a URL that fails
validation, and that error propagates out of the step. -/
def paySagaStep3 (isProduction : Bool) (maxAttempts : Nat) (ctx : PayCtx)
    (w : PayWorld) : Except String (PayCtx × PayWorld) :=
  match ctx.payment with
  | none => .error "Payment not found in context"
  | some payment =>
      match payment.webhook_url with
      | none => .ok (ctx, w)
      | some u =>
          match queueWebhook isProduction maxAttempts (some u) with
          | .ok _ =>
              .ok (ctx, { w with queuedEvents :=
                w.queuedEvents ++ ["payment." ++ payment.status.toStr] })
          | .error e => .error e

/-- Result of the inlined saga run, mirroring `SagaResult` plus the list of
compensations that ran. -/
structure PaySagaOutcome where
  success : Bool
  payment : Option PaymentRecord
  error : Option String
  failedStep : Option String
  completedSteps : List String
  compensated : List String
deriving DecidableEq, Repr

/-- Inlined `SagaOrchestrator.execute` on the three steps of
`createPaymentSaga` (only `create_payment_record` has a compensation; a
failure passes the context of the last completed step to it). -/
def runPaymentSaga (isProduction : Bool) (maxAttempts : Nat)
    (call : ProviderCall) (input : PayInput) (w0 : PayWorld) :
    PaySagaOutcome × PayWorld :=
  let s1 := paySagaStep1 input w0
  match paySagaStep2 call s1.1 s1.2 with
  | .error e =>
      (⟨false, s1.1.payment, some e, some "process_with_provider",
        ["create_payment_record"], ["create_payment_record"]⟩,
       paySagaStep1Compensate s1.1 s1.2)
  | .ok s2 =>
      match paySagaStep3 isProduction maxAttempts s2.1 s2.2 with
      | .error e =>
          (⟨false, s2.1.payment, some e, some "send_webhook",
            ["create_payment_record", "process_with_provider"],
            ["create_payment_record"]⟩,
           paySagaStep1Compensate s2.1 s2.2)
      | .ok s3 =>
          (⟨true, s3.1.payment, none, none,
            ["create_payment_record", "process_with_provider", "send_webhook"],
            []⟩,
           s3.2)

/-- The `ProcessPaymentResult` the service returns. -/
structure ProcessPaymentResult where
  payment : Option PaymentRecord
  success : Bool
  error : Option String
deriving DecidableEq, Repr

/-- Embedding of `PaymentService.processPayment` after input validation: run
the charge saga and map its result — a failed saga (or a missing payment in
the context) yields `success = false` with the saga error, a successful one
yields `success = (status == completed)`. -/
def processPayment (isProduction : Bool) (maxAttempts : Nat)
    (call : ProviderCall) (input : PayInput) :
    ProcessPaymentResult × PayWorld :=
  let run := runPaymentSaga isProduction maxAttempts call input emptyPayWorld
  let res := run.1
  match res.success, res.payment with
  | true, some p =>
      ({ payment := some p, success := p.status == PaymentStatus.completed,
         error := none }, run.2)
  | _, _ =>
      ({ payment := res.payment, success := false,
         error := some (res.error.getD "Payment processing failed") }, run.2)

/-!
## Concrete inputs used by witnesses and counterexamples
-/

/-- The transition table exactly as the specification writes it, as a list of
permitted `(from, to)` pairs — the spec-side formulation the service's
`isValidStatusTransition` is compared against. -/
def specAllowedTransitionPairs : List (PaymentStatus × PaymentStatus) :=
  [(.pending, .processing), (.pending, .completed), (.pending, .failed),
   (.processing, .completed), (.processing, .failed),
   (.completed, .refunded), (.completed, .partially_refunded),
   (.partially_refunded, .refunded)]

/-- First step of the concrete saga used by witnesses: succeeds and has a
compensation that itself throws. -/
def wSagaStepA : SagaStep Nat String :=
  ⟨"A", fun n => .ok (n + 1), some (fun _ => .error "boom")⟩

/-- Second step of the concrete witness saga: succeeds, no compensation. -/
def wSagaStepB : SagaStep Nat String :=
  ⟨"B", fun n => .ok (n * 2), none⟩

/-- Third step of the concrete witness saga: always throws. -/
def wSagaStepC : SagaStep Nat String :=
  ⟨"C", fun _ => .error "fail", none⟩

/-- Webhook retry scenario of the spec's end-to-end test 6: a fresh event
whose destination fails three times and then succeeds, each delivery
performed at the scheduled retry time. -/
def c8w0 : WebhookEventRow := queueWebhookRow 5

def c8p1 : ProcessWebhookOutcome :=
  processWebhook defaultRetryDelays 0 (.httpError 500 "server error") c8w0

def c8p2 : ProcessWebhookOutcome :=
  processWebhook defaultRetryDelays 60000 (.httpError 500 "server error") c8p1.row

def c8p3 : ProcessWebhookOutcome :=
  processWebhook defaultRetryDelays 360000 (.httpError 500 "server error") c8p2.row

def c8p4 : ProcessWebhookOutcome :=
  processWebhook defaultRetryDelays 1260000 .delivered c8p3.row

theorem sagaExecuteAux_append {Ctx Err : Type}
    (pre : List (SagaStep Ctx Err)) :
    ∀ (tail completed : List (SagaStep Ctx Err)) (ctx ctx' : Ctx),
      runSteps pre ctx = .ok ctx' →
      sagaExecuteAux (pre ++ tail) completed ctx =
        sagaExecuteAux tail (completed ++ pre) ctx' := by
  induction pre with
  | nil =>
      intro tail completed ctx ctx' h
      simp only [runSteps] at h
      cases h
      simp
  | cons s rest ih =>
      intro tail completed ctx ctx' h
      cases hs : s.execute ctx with
      | ok ctx1 =>
          have h' : runSteps rest ctx1 = .ok ctx' := by
            simpa [runSteps, hs] using h
          simp only [List.cons_append, sagaExecuteAux, hs, List.append_eq]
          rw [ih tail (completed ++ [s]) ctx1 ctx' h']
          simp
      | error e =>
          exfalso
          simp [runSteps, hs] at h

theorem sagaExecuteAux_shape {Ctx Err : Type}
    (steps : List (SagaStep Ctx Err)) :
    ∀ (completed : List (SagaStep Ctx Err)) (ctx : Ctx),
      (let r := (sagaExecuteAux steps completed ctx).1
       (r.success = true ∧ r.error = none ∧ r.failedStep = none ∧
         r.completedSteps = (completed ++ steps).map (fun s => s.name) ∧
         runSteps steps ctx = .ok r.context) ∨
       (r.success = false ∧ (∃ e, r.error = some e ∧ runSteps steps ctx = .error e) ∧
         (∃ s, s ∈ steps ∧ r.failedStep = some s.name))) := by
  induction steps with
  | nil =>
      intro completed ctx
      left
      simp [sagaExecuteAux, runSteps]
  | cons s rest ih =>
      intro completed ctx
      simp only [sagaExecuteAux]
      cases hs : s.execute ctx with
      | ok ctx1 =>
          rcases ih (completed ++ [s]) ctx1 with h | h

          · left
            refine ⟨h.1, h.2.1, h.2.2.1, ?_, ?_⟩
            · rw [h.2.2.2.1]; simp
            · simp only [runSteps, hs]; exact h.2.2.2.2
          · right
            refine ⟨h.1, ?_, ?_⟩
            · obtain ⟨e, he, hrun⟩ := h.2.1
              exact ⟨e, he, by simp only [runSteps, hs]; exact hrun⟩
            · obtain ⟨st, hmem, hfs⟩ := h.2.2
              exact ⟨st, List.mem_cons_of_mem _ hmem, hfs⟩
      | error e =>
          right
          refine ⟨rfl, ⟨e, rfl, by simp only [runSteps, hs]⟩, ⟨s, List.mem_cons_self _ _, rfl⟩⟩

/-- C3.  Saga compensation order: when the steps before `sk` all complete
and `sk` throws, `SagaOrchestrator.execute` returns `success = false` with
the thrown error, the failed step's name and the completed steps' names in
execution order, and it invokes exactly the compensations of the completed
steps, in reverse completion order, each on the context of the last
completed step — including those whose own invocation returns an error,
which do not stop the sweep. -/
theorem saga_compensation_order {Ctx Err : Type}
    (pre : List (SagaStep Ctx Err)) (sk : SagaStep Ctx Err)
    (rest : List (SagaStep Ctx Err)) (ctx ctx' : Ctx) (e : Err)
    (hpre : runSteps pre ctx = .ok ctx')
    (hfail : sk.execute ctx' = .error e) :
    sagaExecute (pre ++ sk :: rest) ctx =
      ({ success := false, context := ctx', error := some e,
         failedStep := some sk.name,
         completedSteps := pre.map (fun s => s.name) },
       pre.reverse.filterMap fun s =>
         s.compensate.map fun c => (s.name, c ctx')) := by
  unfold sagaExecute
  rw [sagaExecuteAux_append pre (sk :: rest) [] ctx ctx' hpre]
  simp [sagaExecuteAux, hfail, compensationSweep]

/-- Witness for C3: a three-step saga whose third step throws; the first
step's compensation runs (and itself throws, without aborting the sweep),
the second step has no compensation. -/
theorem saga_compensation_order_witness :
    sagaExecute [wSagaStepA, wSagaStepB, wSagaStepC] 5 =
      ({ success := false, context := 12, error := some "fail",
         failedStep := some "C", completedSteps := ["A", "B"] },
       [("A", Except.error "boom")]) := by
  have h := saga_compensation_order [wSagaStepA, wSagaStepB] wSagaStepC []
    5 12 "fail" (by rfl) (by rfl)
  simpa [wSagaStepA, wSagaStepB, wSagaStepC] using h

/-- C9.  Saga execution is total: `SagaOrchestrator.execute` always returns
a `SagaResult` (the embedding is a total function — no exception escapes):
either every step completed and the result records success with all step
names, or some step threw and the result carries `success = false`, the
thrown error and the failing step's name; compensation errors are swallowed
by construction of the sweep. -/
theorem saga_execution_is_total {Ctx Err : Type}
    (steps : List (SagaStep Ctx Err)) (ctx : Ctx) :
    (let r := (sagaExecute steps ctx).1
     (r.success = true ∧ r.error = none ∧ r.failedStep = none ∧
       r.completedSteps = steps.map (fun s => s.name) ∧
       runSteps steps ctx = .ok r.context) ∨
     (r.success = false ∧
       (∃ e, r.error = some e ∧ runSteps steps ctx = .error e) ∧
       (∃ s, s ∈ steps ∧ r.failedStep = some s.name))) := by
  have h := sagaExecuteAux_shape steps [] ctx
  simpa using h

/-- C4 counterexample.  A payment without a webhook URL undergoing the
permitted transition `pending → processing`: the status is updated and a
transaction row appended, but no merchant webhook is enqueued, contradicting
the claim that on a permitted transition a merchant webhook is (always)
enqueued. -/
theorem status_transition_counterexample :
    (isValidStatusTransition .pending .processing = true) ∧
    (updatePaymentFromWebhook .processing
        ⟨⟨.pending, some "tx-1", none⟩, [], [], []⟩).payment.status =
      .processing ∧
    (updatePaymentFromWebhook .processing
        ⟨⟨.pending, some "tx-1", none⟩, [], [], []⟩).queuedEvents = [] := by
  decide

/-- C4 (amended).  Status-transition enforcement: `isValidStatusTransition`
permits exactly the pairs of the specification's table, and
`updatePaymentFromWebhook` applies a permitted transition — updating the
status, appending a transaction row, recording an audit, and enqueuing a
merchant webhook when (and only when) the payment carries a webhook URL —
while a forbidden transition returns the state unchanged. -/
theorem status_transition_enforcement (st : ReconciliationState)
    (newStatus : PaymentStatus) :
    (isValidStatusTransition st.payment.status newStatus = true ↔
      (st.payment.status, newStatus) ∈ specAllowedTransitionPairs) ∧
    (isValidStatusTransition st.payment.status newStatus = true →
      (updatePaymentFromWebhook newStatus st).payment.status = newStatus ∧
      (updatePaymentFromWebhook newStatus st).payment.provider_transaction_id =
        st.payment.provider_transaction_id ∧
      (updatePaymentFromWebhook newStatus st).payment.webhook_url =
        st.payment.webhook_url ∧
      (updatePaymentFromWebhook newStatus st).transactions =
        st.transactions ++ [newStatus] ∧
      (updatePaymentFromWebhook newStatus st).audits =
        st.audits ++ [(st.payment.status, newStatus)] ∧
      (updatePaymentFromWebhook newStatus st).queuedEvents =
        st.queuedEvents ++
          (if st.payment.webhook_url.isSome then
            ["payment." ++ newStatus.toStr]
          else [])) ∧
    (isValidStatusTransition st.payment.status newStatus = false →
      updatePaymentFromWebhook newStatus st = st) := by
  refine ⟨?_, ?_, ?_⟩
  · have h : ∀ f t : PaymentStatus,
        isValidStatusTransition f t = true ↔
          (f, t) ∈ specAllowedTransitionPairs := by decide
    exact h _ _
  · intro hval
    cases hurl : st.payment.webhook_url <;>
      simp [updatePaymentFromWebhook, hval, hurl]
  · intro hval
    simp [updatePaymentFromWebhook, hval]

/-- Witness for C4 (amended): on a payment with a webhook URL, the permitted
transition `completed → refunded` updates the status and enqueues a
`payment.refunded` event, and the forbidden transition `failed → completed`
leaves the state untouched. -/
theorem status_transition_enforcement_witness :
    ((updatePaymentFromWebhook .refunded
        ⟨⟨.completed, some "tx-2", some "https://merchant.example/hook"⟩,
         [.completed], [], []⟩).payment.status = .refunded ∧
      (updatePaymentFromWebhook .refunded
        ⟨⟨.completed, some "tx-2", some "https://merchant.example/hook"⟩,
         [.completed], [], []⟩).queuedEvents = ["payment.refunded"]) ∧
    updatePaymentFromWebhook .completed
        ⟨⟨.failed, none, none⟩, [], [], []⟩ =
      ⟨⟨.failed, none, none⟩, [], [], []⟩ := by
  constructor
  · have h := (status_transition_enforcement
      ⟨⟨.completed, some "tx-2", some "https://merchant.example/hook"⟩,
       [.completed], [], []⟩ .refunded).2.1 (by decide)
    exact ⟨h.1, by simpa using h.2.2.2.2.2⟩
  · exact (status_transition_enforcement
      ⟨⟨.failed, none, none⟩, [], [], []⟩ .completed).2.2 (by decide)

theorem setLastRefundStatus_append (rs : List RefundRow) (r : RefundRow)
    (s : RefundStatus) :
    setLastRefundStatus (rs ++ [r]) s = rs ++ [{ r with status := s }] := by
  induction rs with
  | nil => rfl
  | cons a rest ih =>
      cases rest with
      | nil => rfl
      | cons b t =>
          simp only [List.cons_append, setLastRefundStatus, List.append_eq]
            at ih ⊢
          rw [ih]

theorem sumCompletedRefunds_append (rs : List RefundRow) (r : RefundRow) :
    sumCompletedRefunds (rs ++ [r]) =
      sumCompletedRefunds rs +
        (if r.status = .completed then r.amount else 0) := by
  by_cases hr : r.status = .completed <;>
    simp [sumCompletedRefunds, List.filter_append, hr]

theorem sumPendingRefunds_append (rs : List RefundRow) (r : RefundRow) :
    sumPendingRefunds (rs ++ [r]) =
      sumPendingRefunds rs +
        (if r.status = .pending then r.amount else 0) := by
  by_cases hr : r.status = .pending <;>
    simp [sumPendingRefunds, List.filter_append, hr]

/-- Inductive invariant of the refund state machine: the pending total is
non-negative and the completed and pending totals together never exceed the
payment amount. -/
theorem refund_reachable_inv (st : RefundPaymentState)
    (h : RefundReachable st) :
    0 ≤ sumPendingRefunds st.refunds ∧
    sumCompletedRefunds st.refunds + sumPendingRefunds st.refunds ≤
      st.amount := by
  induction h with
  | init a tx hpos =>
      refine ⟨by simp [sumPendingRefunds], ?_⟩
      simp only [sumCompletedRefunds, sumPendingRefunds]
      simpa using le_of_lt hpos
  | step st st' amt outcome res hreach hcall ih =>
      simp only [createRefund] at hcall
      split_ifs at hcall with h1 h2 h3 h4
      all_goals
        have hle : amt ≤ st.amount - sumCompletedRefunds st.refunds -
          sumPendingRefunds st.refunds := not_lt.mp h3
      all_goals
        cases outcome <;>
          (simp only [Except.ok.injEq, Prod.mk.injEq] at hcall
           obtain ⟨hst, -⟩ := hcall
           subst hst
           refine ⟨?_, ?_⟩ <;>
             simp [setLastRefundStatus_append, sumCompletedRefunds_append,
               sumPendingRefunds_append] <;>
             linarith [ih.1, ih.2])

/-- C1.  Amount conservation: in every state reachable by `createRefund`
calls from a freshly completed payment, the completed refund total never
exceeds the payment amount; and a `createRefund` call succeeds (inserting a
refund) exactly when the payment status is `completed` or
`partially_refunded`, the requested amount is positive, and the amount is at
most the payment amount minus the completed and pending refund totals — in
every other case it throws a validation error, and the rolled-back
transaction inserts nothing. -/
theorem refund_amount_conservation (st : RefundPaymentState)
    (h : RefundReachable st) :
    sumCompletedRefunds st.refunds ≤ st.amount ∧
    (∀ (amount : ℚ) (outcome : RefundProviderOutcome),
      (∃ out, createRefund amount outcome st = .ok out) ↔
        ((st.status = .completed ∨ st.status = .partially_refunded) ∧
          0 < amount ∧
          amount ≤ st.amount - sumCompletedRefunds st.refunds -
            sumPendingRefunds st.refunds)) := by
  obtain ⟨hpend, hsum⟩ := refund_reachable_inv st h
  constructor
  · linarith
  · intro amount outcome
    constructor
    · rintro ⟨out, hout⟩
      simp only [createRefund] at hout
      split_ifs at hout with h1 h2 h3 h4
      all_goals exact ⟨h1, not_le.mp h2, not_lt.mp h3⟩
    · rintro ⟨h1, h2, h3⟩
      simp only [createRefund]
      rw [if_neg (not_not_intro h1), if_neg (not_le.mpr h2),
        if_neg (not_lt.mpr h3)]
      cases outcome <;> exact ⟨_, rfl⟩

/-- Witness for C1: the freshly completed payment of amount 100 satisfies
the conservation bound, and a refund of 30 against it is accepted. -/
theorem refund_amount_conservation_witness :
    sumCompletedRefunds
        ((⟨100, .completed, [], []⟩ : RefundPaymentState)).refunds ≤ 100 ∧
    (∃ out, createRefund 30 .accepted
      (⟨100, .completed, [], []⟩ : RefundPaymentState) = .ok out) := by
  have h := refund_amount_conservation ⟨100, .completed, [], []⟩
    (RefundReachable.init 100 [] (by norm_num))
  refine ⟨h.1, (h.2 30 .accepted).mpr ⟨Or.inl rfl, by norm_num, ?_⟩⟩
  simp [sumCompletedRefunds, sumPendingRefunds]
  norm_num

/-- C2.  Idempotent replay and fingerprint conflict: with a live stored
record for the `(merchant, key)` pair, a submitted fingerprint different
from the stored `request_hash` makes `check` throw `IdempotencyConflict` and
the middleware answer 409 before any handler work; a matching fingerprint on
a completed record makes the middleware re-emit exactly the stored response
body with the stored status code; a matching fingerprint on a record still
`processing` makes the middleware answer 409 without running the handler. -/
theorem idempotent_replay (now : Nat) (hash : String) (st : IdemState)
    (r : IdemRecord) (hstored : storedRecord now st = some r) :
    (r.request_hash ≠ hash →
      idempotencyCheck now hash st = .error idempotencyConflictMessage ∧
      idempotencyMiddleware now hash st =
        .respond 409 (some idempotencyConflictMessage)) ∧
    (r.request_hash = hash → r.status = .completed →
      ∀ code body, r.status_code = some code → code ≠ 0 →
        r.response = some body →
        idempotencyMiddleware now hash st = .respond code (some body)) ∧
    (r.request_hash = hash → r.status = .processing →
      idempotencyMiddleware now hash st =
        .respond 409 (some processingConflictMessage) ∧
      idempotencyMiddleware now hash st ≠ .proceed) := by
  have hcheck :
      idempotencyCheck now hash st =
        (if r.request_hash ≠ hash then .error idempotencyConflictMessage
         else if r.status = .processing then .ok ⟨true, true, none, none⟩
         else .ok ⟨true, false, r.response, numOrUndefined r.status_code⟩) := by
    cases hc : st.cache with
    | some c =>
        simp only [storedRecord, hc] at hstored
        cases hstored
        simp [idempotencyCheck, hc]
    | none =>
        cases hd : st.db with
        | none => simp [storedRecord, hc, hd] at hstored
        | some d =>
            simp only [storedRecord, hc, hd] at hstored
            by_cases hexp : now < d.expires_at
            · rw [if_pos hexp] at hstored
              cases hstored
              simp [idempotencyCheck, hc, hd,
                if_neg (Nat.not_le.mpr hexp)]
            · rw [if_neg hexp] at hstored
              cases hstored
  refine ⟨?_, ?_, ?_⟩
  · intro hneq
    have h1 : idempotencyCheck now hash st =
        .error idempotencyConflictMessage := by
      rw [hcheck, if_pos hneq]
    exact ⟨h1, by simp [idempotencyMiddleware, h1]⟩
  · intro heq hcompleted code body hcode hcode0 hbody
    have h1 : idempotencyCheck now hash st =
        .ok ⟨true, false, r.response, numOrUndefined r.status_code⟩ := by
      rw [hcheck, if_neg (by simp [heq]), if_neg (by simp [hcompleted])]
    simp [idempotencyMiddleware, h1, hbody, hcode, numOrUndefined, hcode0]
  · intro heq hproc
    have h1 : idempotencyCheck now hash st = .ok ⟨true, true, none, none⟩ := by
      rw [hcheck, if_neg (by simp [heq]), if_pos hproc]
    exact ⟨by simp [idempotencyMiddleware, h1],
      by simp [idempotencyMiddleware, h1]⟩

/-- Witness for C2: a completed cached record with fingerprint `fp-a`,
stored status 201 and stored body replayed verbatim; a mismatching
fingerprint `fp-b` answers 409. -/
theorem idempotent_replay_witness :
    idempotencyMiddleware 10 "fp-a"
        ⟨some ⟨"fp-a", .completed, some "stored-body", some 201, 1000⟩,
         none⟩ =
      .respond 201 (some "stored-body") ∧
    idempotencyMiddleware 10 "fp-b"
        ⟨some ⟨"fp-a", .completed, some "stored-body", some 201, 1000⟩,
         none⟩ =
      .respond 409 (some idempotencyConflictMessage) := by
  constructor
  · exact (idempotent_replay 10 "fp-a"
      ⟨some ⟨"fp-a", .completed, some "stored-body", some 201, 1000⟩, none⟩
      ⟨"fp-a", .completed, some "stored-body", some 201, 1000⟩ rfl).2.1
      rfl rfl 201 "stored-body" rfl (by decide) rfl
  · exact ((idempotent_replay 10 "fp-b"
      ⟨some ⟨"fp-a", .completed, some "stored-body", some 201, 1000⟩, none⟩
      ⟨"fp-a", .completed, some "stored-body", some 201, 1000⟩ rfl).1
      (by decide)).2

theorem handleFailure_spec (retryDelays : List Nat) (now : Nat) (msg : String)
    (w : WebhookEventRow) :
    (handleFailure retryDelays now msg w).1.attempts = w.attempts + 1 ∧
    (handleFailure retryDelays now msg w).1.max_attempts = w.max_attempts ∧
    (handleFailure retryDelays now msg w).1.last_error = some msg ∧
    (w.max_attempts ≤ w.attempts + 1 →
      (handleFailure retryDelays now msg w).1.status = .failed ∧
      (handleFailure retryDelays now msg w).2 = none) ∧
    (w.attempts + 1 < w.max_attempts →
      (handleFailure retryDelays now msg w).1.status = w.status ∧
      ∃ d, (handleFailure retryDelays now msg w).2 = some d ∧
        (handleFailure retryDelays now msg w).1.next_retry_at =
          some (now + d) ∧
        d = (if retryDelays.getD
              (min w.attempts (retryDelays.length - 1)) 0 = 0 then 3600000
             else retryDelays.getD
              (min w.attempts (retryDelays.length - 1)) 0)) := by
  simp only [handleFailure]
  by_cases hmax : w.max_attempts ≤ w.attempts + 1
  · rw [if_pos hmax]
    exact ⟨rfl, rfl, rfl, fun _ => ⟨rfl, rfl⟩, fun h => absurd hmax (by omega)⟩
  · rw [if_neg hmax]
    exact ⟨rfl, rfl, rfl, fun h => absurd h hmax, fun _ => ⟨rfl, _, rfl, rfl, rfl⟩⟩

/-- C6.  Webhook delivery bounds: the invariant `attempts ≤ max_attempts`
(strict while the event is still pending) holds for a freshly queued event
and is preserved by every `processWebhook` call; each delivery failure
increments `attempts` by exactly one; the failure that reaches
`max_attempts` marks the event permanently `failed`, records `last_error`
and schedules no retry; a `sent` or `failed` event is never delivered again
and is left untouched; and every other failure takes its retry delay from
the ordered schedule indexed by the prior attempt count, clamped to the last
entry, setting `next_retry_at = now + delay`. -/
theorem webhook_delivery_bounds (retryDelays : List Nat) (now : Nat)
    (outcome : DeliveryOutcome) (w : WebhookEventRow) (hInv : WebhookInv w) :
    WebhookInv (processWebhook retryDelays now outcome w).row ∧
    (∀ m, 0 < m → WebhookInv (queueWebhookRow m)) ∧
    (w.status = .pending → outcome ≠ .delivered →
      (processWebhook retryDelays now outcome w).row.attempts =
        w.attempts + 1) ∧
    (w.status = .pending → outcome ≠ .delivered →
        w.max_attempts ≤ w.attempts + 1 →
      (processWebhook retryDelays now outcome w).row.status = .failed ∧
      (∃ msg, (processWebhook retryDelays now outcome w).row.last_error =
        some msg) ∧
      (processWebhook retryDelays now outcome w).republishDelay = none) ∧
    ((w.status = .sent ∨ w.status = .failed) →
      (processWebhook retryDelays now outcome w).delivered = false ∧
      (processWebhook retryDelays now outcome w).row = w) ∧
    (w.status = .pending → outcome ≠ .delivered →
        w.attempts + 1 < w.max_attempts →
        retryDelays ≠ [] → (∀ d ∈ retryDelays, 0 < d) →
      ∃ d, (processWebhook retryDelays now outcome w).republishDelay =
          some d ∧
        (processWebhook retryDelays now outcome w).row.next_retry_at =
          some (now + d) ∧
        (w.attempts < retryDelays.length →
          d = retryDelays.getD w.attempts 0) ∧
        (retryDelays.length ≤ w.attempts →
          some d = retryDelays.getLast?)) := by
  cases hs : w.status with
  | sent =>
      refine ⟨?_, ?_, ?_, ?_, ?_, ?_⟩
      · simpa [processWebhook, hs] using hInv
      · intro m hm
        exact ⟨Nat.zero_le m, fun _ => hm⟩
      · intro hp; simp [hs] at hp
      · intro hp; simp [hs] at hp
      · intro _; simp [processWebhook, hs]
      · intro hp; simp [hs] at hp
  | failed =>
      refine ⟨?_, ?_, ?_, ?_, ?_, ?_⟩
      · simpa [processWebhook, hs] using hInv
      · intro m hm
        exact ⟨Nat.zero_le m, fun _ => hm⟩
      · intro hp; simp [hs] at hp
      · intro hp; simp [hs] at hp
      · intro _; simp [processWebhook, hs]
      · intro hp; simp [hs] at hp
  | pending =>
      have hlt : w.attempts < w.max_attempts := hInv.2 hs
      cases outcome with
      | delivered =>
          refine ⟨?_, ?_, ?_, ?_, ?_, ?_⟩
          · refine ⟨?_, ?_⟩
            · simpa [processWebhook, hs, markAsSent] using hInv.1
            · intro hcontra
              simp [processWebhook, hs, markAsSent] at hcontra
          · intro m hm
            exact ⟨Nat.zero_le m, fun _ => hm⟩
          · intro _ hno; exact absurd rfl hno
          · intro _ hno; exact absurd rfl hno
          · intro habs
            rcases habs with h | h <;> cases h
          · intro _ hno; exact absurd rfl hno
      | httpError code body =>
          have hspec := handleFailure_spec retryDelays now
            ("HTTP " ++ toString code ++ ": " ++ body) w
          have hrow : (processWebhook retryDelays now (.httpError code body)
              w).row = (handleFailure retryDelays now
              ("HTTP " ++ toString code ++ ": " ++ body) w).1 := by
            simp [processWebhook, hs]
          have hdel : (processWebhook retryDelays now (.httpError code body)
              w).republishDelay = (handleFailure retryDelays now
              ("HTTP " ++ toString code ++ ": " ++ body) w).2 := by
            simp [processWebhook, hs]
          refine ⟨?_, ?_, ?_, ?_, ?_, ?_⟩
          · rw [hrow]
            by_cases hmax : w.max_attempts ≤ w.attempts + 1
            · obtain ⟨hfs, -⟩ := hspec.2.2.2.1 hmax
              refine ⟨?_, ?_⟩
              · rw [hspec.1, hspec.2.1]; omega
              · intro hps; rw [hfs] at hps; cases hps
            · have hlt2 : w.attempts + 1 < w.max_attempts := by omega
              obtain ⟨hst2, -⟩ := hspec.2.2.2.2 hlt2
              refine ⟨?_, ?_⟩
              · rw [hspec.1, hspec.2.1]; omega
              · intro _; rw [hspec.1, hspec.2.1]; omega
          · intro m hm
            exact ⟨Nat.zero_le m, fun _ => hm⟩
          · intro _ _; rw [hrow]; exact hspec.1
          · intro _ _ hmax
            obtain ⟨hfs, hnone⟩ := hspec.2.2.2.1 hmax
            rw [hrow, hdel]
            exact ⟨hfs, ⟨_, hspec.2.2.1⟩, hnone⟩
          · intro habs
            rcases habs with h | h <;> cases h
          · intro _ _ hlt2 hne hpos
            obtain ⟨-, d, hd, hretry, hdval⟩ := hspec.2.2.2.2 hlt2
            rw [hrow, hdel]
            refine ⟨d, hd, hretry, ?_, ?_⟩
            · intro hidx
              have hmin : min w.attempts (retryDelays.length - 1) =
                  w.attempts := by omega
              rw [hmin] at hdval
              have hmem : retryDelays.getD w.attempts 0 ∈ retryDelays := by
                rw [List.getD_eq_getElem _ _ hidx]
                exact List.getElem_mem _
              rw [hdval, if_neg (Nat.pos_iff_ne_zero.mp (hpos _ hmem))]
            · intro hge
              have hlen : 0 < retryDelays.length :=
                List.length_pos.mpr hne
              have hmin : min w.attempts (retryDelays.length - 1) =
                  retryDelays.length - 1 := by omega
              rw [hmin] at hdval
              have hidx : retryDelays.length - 1 < retryDelays.length := by
                omega
              have hmem : retryDelays.getD (retryDelays.length - 1) 0 ∈
                  retryDelays := by
                rw [List.getD_eq_getElem _ _ hidx]
                exact List.getElem_mem _
              rw [hdval, if_neg (Nat.pos_iff_ne_zero.mp (hpos _ hmem))]
              rw [List.getLast?_eq_getLast_of_ne_nil hne]
              rw [List.getLast_eq_getElem]
              rw [List.getD_eq_getElem _ _ hidx]
      | thrown message =>
          have hspec := handleFailure_spec retryDelays now message w
          have hrow : (processWebhook retryDelays now (.thrown message)
              w).row = (handleFailure retryDelays now message w).1 := by
            simp [processWebhook, hs]
          have hdel : (processWebhook retryDelays now (.thrown message)
              w).republishDelay =
              (handleFailure retryDelays now message w).2 := by
            simp [processWebhook, hs]
          refine ⟨?_, ?_, ?_, ?_, ?_, ?_⟩
          · rw [hrow]
            by_cases hmax : w.max_attempts ≤ w.attempts + 1
            · obtain ⟨hfs, -⟩ := hspec.2.2.2.1 hmax
              refine ⟨?_, ?_⟩
              · rw [hspec.1, hspec.2.1]; omega
              · intro hps; rw [hfs] at hps; cases hps
            · have hlt2 : w.attempts + 1 < w.max_attempts := by omega
              obtain ⟨hst2, -⟩ := hspec.2.2.2.2 hlt2
              refine ⟨?_, ?_⟩
              · rw [hspec.1, hspec.2.1]; omega
              · intro _; rw [hspec.1, hspec.2.1]; omega
          · intro m hm
            exact ⟨Nat.zero_le m, fun _ => hm⟩
          · intro _ _; rw [hrow]; exact hspec.1
          · intro _ _ hmax
            obtain ⟨hfs, hnone⟩ := hspec.2.2.2.1 hmax
            rw [hrow, hdel]
            exact ⟨hfs, ⟨_, hspec.2.2.1⟩, hnone⟩
          · intro habs
            rcases habs with h | h <;> cases h
          · intro _ _ hlt2 hne hpos
            obtain ⟨-, d, hd, hretry, hdval⟩ := hspec.2.2.2.2 hlt2
            rw [hrow, hdel]
            refine ⟨d, hd, hretry, ?_, ?_⟩
            · intro hidx
              have hmin : min w.attempts (retryDelays.length - 1) =
                  w.attempts := by omega
              rw [hmin] at hdval
              have hmem : retryDelays.getD w.attempts 0 ∈ retryDelays := by
                rw [List.getD_eq_getElem _ _ hidx]
                exact List.getElem_mem _
              rw [hdval, if_neg (Nat.pos_iff_ne_zero.mp (hpos _ hmem))]
            · intro hge
              have hlen : 0 < retryDelays.length :=
                List.length_pos.mpr hne
              have hmin : min w.attempts (retryDelays.length - 1) =
                  retryDelays.length - 1 := by omega
              rw [hmin] at hdval
              have hidx : retryDelays.length - 1 < retryDelays.length := by
                omega
              have hmem : retryDelays.getD (retryDelays.length - 1) 0 ∈
                  retryDelays := by
                rw [List.getD_eq_getElem _ _ hidx]
                exact List.getElem_mem _
              rw [hdval, if_neg (Nat.pos_iff_ne_zero.mp (hpos _ hmem))]
              rw [List.getLast?_eq_getLast_of_ne_nil hne]
              rw [List.getLast_eq_getElem]
              rw [List.getD_eq_getElem _ _ hidx]

/-- Witness for C6: a pending event at attempt count 2 (of 5) failing with
an HTTP 500 keeps the invariant, reaches attempt count 3, and is rescheduled
with the third entry of the default retry schedule. -/
theorem webhook_delivery_bounds_witness :
    WebhookInv (processWebhook defaultRetryDelays 1000 (.httpError 500 "boom")
      ⟨.pending, 2, 5, none, none, none⟩).row ∧
    (processWebhook defaultRetryDelays 1000 (.httpError 500 "boom")
      ⟨.pending, 2, 5, none, none, none⟩).row.attempts = 2 + 1 ∧
    (∃ d, (processWebhook defaultRetryDelays 1000 (.httpError 500 "boom")
        ⟨.pending, 2, 5, none, none, none⟩).republishDelay = some d ∧
      (processWebhook defaultRetryDelays 1000 (.httpError 500 "boom")
        ⟨.pending, 2, 5, none, none, none⟩).row.next_retry_at =
        some (1000 + d) ∧
      d = defaultRetryDelays.getD 2 0) := by
  have h := webhook_delivery_bounds defaultRetryDelays 1000
    (.httpError 500 "boom") ⟨.pending, 2, 5, none, none, none⟩ (by decide)
  refine ⟨h.1, h.2.2.1 rfl (by decide), ?_⟩
  obtain ⟨d, hd1, hd2, hd3, -⟩ :=
    h.2.2.2.2.2 rfl (by decide) (by decide) (by decide) (by decide)
  exact ⟨d, hd1, hd2, hd3 (by decide)⟩

/-- C8 counterexample.  In the retry scenario — destination fails three
deliveries, each performed at its scheduled time, then succeeds — the stored
attempt counter after the successful fourth delivery is 3, not 4:
`markAsSent` does not touch `attempts`, so only the three failures
incremented it. -/
theorem webhook_retry_count_counterexample :
    c8p4.row.status = .sent ∧ c8p4.row.sent_at = some 1260000 ∧
    c8p4.row.attempts = 3 ∧ ¬ c8p4.row.attempts = 4 := by
  decide

/-- C8 (amended).  Webhook retry end-to-end: with the default schedule, the
three failed deliveries advance `attempts` through 1, 2, 3 with
`next_retry_at` spaced by the schedule (60 s, then 300 s, then 900 s after
the respective failures), the fourth delivery succeeds, the status becomes
`sent` with `sent_at` set, and the stored attempt counter after the
successful delivery is 3 (a successful delivery does not increment it). -/
theorem webhook_retry_count_amended :
    c8p1.row.attempts = 1 ∧ c8p1.row.next_retry_at = some 60000 ∧
    c8p1.row.status = .pending ∧
    c8p2.row.attempts = 2 ∧ c8p2.row.next_retry_at = some 360000 ∧
    c8p2.row.status = .pending ∧
    c8p3.row.attempts = 3 ∧ c8p3.row.next_retry_at = some 1260000 ∧
    c8p3.row.status = .pending ∧
    c8p4.result = true ∧ c8p4.row.status = .sent ∧
    c8p4.row.sent_at = some 1260000 ∧ c8p4.row.attempts = 3 := by
  decide

/-- C7 counterexample.  The hostname `fd12:3456::1` lies in `fc00::/7`
(first hextet `fd12`), yet `validateWebhookUrl` accepts it — the source only
checks the literal prefixes `fc00:`, `fd00:` and `fe80:` — so `queueWebhook`
persists the event instead of rejecting the URL. -/
theorem ssrf_ipv6_range_counterexample :
    specIPv6PrivateOrLinkLocal "fd12:3456::1" = true ∧
    (validateWebhookUrl true (some ⟨"https:", "fd12:3456::1"⟩)).valid =
      true ∧
    queueWebhook true 5 (some ⟨"https:", "fd12:3456::1"⟩) =
      .ok (queueWebhookRow 5) := by
  refine ⟨by decide, by decide, rfl⟩

/-- C7 (amended).  SSRF URL validation as the code performs it: every
webhook URL whose (lowercased) hostname starts with `10.`, with `172.<n>.`
for `16 ≤ n ≤ 31`, with `192.168.`, with `169.254.`, or with one of the
literal IPv6 prefixes `fc00:`, `fd00:` or `fe80:`, or ends with `.internal`
or `.local`, is rejected by `queueWebhook` with a validation error and
nothing is persisted.  (IPv6 addresses elsewhere in `fc00::/7` or
`fe80::/10` are not covered by these prefix checks.) -/
theorem ssrf_url_validation_amended (isProduction : Bool) (maxAttempts : Nat)
    (proto host : String)
    (hyp : strStartsWith (strToLower host) "10." = true ∨
      (∃ n, 16 ≤ n ∧ n ≤ 31 ∧
        strStartsWith (strToLower host) ("172." ++ toString n ++ ".") =
          true) ∨
      strStartsWith (strToLower host) "192.168." = true ∨
      strStartsWith (strToLower host) "169.254." = true ∨
      strStartsWith (strToLower host) "fc00:" = true ∨
      strStartsWith (strToLower host) "fd00:" = true ∨
      strStartsWith (strToLower host) "fe80:" = true ∨
      strEndsWith (strToLower host) ".internal" = true ∨
      strEndsWith (strToLower host) ".local" = true) :
    ∃ msg, queueWebhook isProduction maxAttempts (some ⟨proto, host⟩) =
      .error msg := by
  have hhost : isPrivateIP (strToLower host) = true ∨
      (strEndsWith (strToLower host) ".internal" ||
        strEndsWith (strToLower host) ".local") = true := by
    rcases hyp with h | h | h | h | h | h | h | h | h
    · left; simp [isPrivateIP, h]
    · left
      obtain ⟨n, hn1, hn2, hn⟩ := h
      have hany : (List.range 16).any (fun i =>
          strStartsWith (strToLower host)
            ("172." ++ toString (16 + i) ++ ".")) = true := by
        rw [List.any_eq_true]
        refine ⟨n - 16, List.mem_range.mpr (by omega), ?_⟩
        have he : 16 + (n - 16) = n := by omega
        rw [he]
        exact hn
      simp [isPrivateIP, hany]
    · left; simp [isPrivateIP, h]
    · left; simp [isPrivateIP, h]
    · left; simp [isPrivateIP, h]
    · left; simp [isPrivateIP, h]
    · left; simp [isPrivateIP, h]
    · right; simp [h]
    · right; simp [h]
  have vfalse : (validateWebhookUrl isProduction
      (some ⟨proto, host⟩)).valid = false := by
    simp only [validateWebhookUrl]
    split_ifs with h1 h2 h3 h4 <;> try rfl
    all_goals
      rcases hhost with hp | hsuf
      · exact absurd hp h3
      · exact absurd hsuf h4
  refine ⟨(validateWebhookUrl isProduction
    (some ⟨proto, host⟩)).error.getD "Invalid webhook URL", ?_⟩
  simp [queueWebhook, vfalse]

/-- Witness for C7 (amended): the private IPv4 host `10.0.0.5` is rejected
by `queueWebhook`. -/
theorem ssrf_url_validation_amended_witness :
    ∃ msg, queueWebhook true 5 (some ⟨"https:", "10.0.0.5"⟩) =
      .error msg :=
  ssrf_url_validation_amended true 5 "https:" "10.0.0.5"
    (Or.inl (by decide))

/-- C5.  Provider response mapping in the charge saga: the status written by
`process_with_provider` is `completed` when the response succeeds with
provider status `completed`, `pending` when it succeeds with any other
provider status, and `failed` when it does not succeed; and any provider
response — a decline included — is a normal step outcome (`paySagaStep2`
returns `.ok`), so a declined charge completes the saga with no compensation
run and the payment persisted as `failed`. -/
theorem provider_response_mapping (r : ProviderResponse) :
    (r.success = true → r.status = .completed →
      mapProviderStatus r = .completed) ∧
    (r.success = true → r.status ≠ .completed →
      mapProviderStatus r = .pending) ∧
    (r.success = false → mapProviderStatus r = .failed) ∧
    (∀ (ctx : PayCtx) (w : PayWorld) (p : PaymentRecord),
      ctx.payment = some p →
      ∃ out, paySagaStep2 (.responds r) ctx w = .ok out) ∧
    (∀ (isProduction : Bool) (maxAttempts : Nat) (input : PayInput)
        (w0 : PayWorld), r.success = false → input.webhook_url = none →
      (runPaymentSaga isProduction maxAttempts (.responds r) input
        w0).1.success = true ∧
      (runPaymentSaga isProduction maxAttempts (.responds r) input
        w0).1.compensated = [] ∧
      ((runPaymentSaga isProduction maxAttempts (.responds r) input
        w0).2.payment.map fun p => p.status) = some .failed) := by
  refine ⟨?_, ?_, ?_, ?_, ?_⟩
  · intro hs hc; simp [mapProviderStatus, hs, hc]
  · intro hs hc; simp [mapProviderStatus, hs, hc]
  · intro hs; simp [mapProviderStatus, hs]
  · intro ctx w p hctx
    cases ctx
    cases hctx
    exact ⟨_, rfl⟩
  · intro isProduction maxAttempts input w0 hs hurl
    cases input
    cases hurl
    simp [runPaymentSaga, paySagaStep1, paySagaStep2, paySagaStep3,
      mapProviderStatus, hs]

/-- Witness for C5: the decline response `{success := false}` maps to
`failed` and runs the whole saga without compensation. -/
theorem provider_response_mapping_witness :
    mapProviderStatus ⟨false, .failed, "ch_1", some "card_declined"⟩ =
      .failed ∧
    (runPaymentSaga true 5
      (.responds ⟨false, .failed, "ch_1", some "card_declined"⟩)
      ⟨none⟩ emptyPayWorld).1.success = true ∧
    (runPaymentSaga true 5
      (.responds ⟨false, .failed, "ch_1", some "card_declined"⟩)
      ⟨none⟩ emptyPayWorld).1.compensated = [] := by
  have h := provider_response_mapping
    ⟨false, .failed, "ch_1", some "card_declined"⟩
  exact ⟨h.2.2.1 rfl,
    (h.2.2.2.2 true 5 ⟨none⟩ emptyPayWorld rfl rfl).1,
    (h.2.2.2.2 true 5 ⟨none⟩ emptyPayWorld rfl rfl).2.1⟩

/-- C10.  The success flag of `processPayment` equals terminal completion:
the returned result has `success = true` exactly when the persisted payment
ends in status `completed`; in particular a provider outcome of `pending`
completes all three saga steps yet yields `success = false` with the
payment left `pending`. -/
theorem process_payment_success_iff (isProduction : Bool)
    (maxAttempts : Nat) (call : ProviderCall) (input : PayInput) :
    ((processPayment isProduction maxAttempts call input).1.success = true ↔
      ((processPayment isProduction maxAttempts call input).2.payment.map
        fun p => p.status) = some PaymentStatus.completed) ∧
    (∀ r, call = .responds r → r.success = true → r.status ≠ .completed →
      input.webhook_url = none →
      (processPayment isProduction maxAttempts call input).1.success =
        false ∧
      ((processPayment isProduction maxAttempts call input).2.payment.map
        fun p => p.status) = some PaymentStatus.pending ∧
      (runPaymentSaga isProduction maxAttempts call input
        emptyPayWorld).1.completedSteps =
        ["create_payment_record", "process_with_provider",
         "send_webhook"]) := by
  cases input with
  | mk url =>
      cases call with
      | throws message =>
          constructor
          · simp [processPayment, runPaymentSaga, paySagaStep1,
              paySagaStep2, paySagaStep1Compensate, emptyPayWorld]
          · intro r hr; cases hr
      | responds r =>
          cases url with
          | none =>
              constructor
              · simp [processPayment, runPaymentSaga, paySagaStep1,
                  paySagaStep2, paySagaStep3, emptyPayWorld]
              · intro r' hr hs hc hurl
                cases hr
                have hmap : mapProviderStatus r = .pending := by
                  simp [mapProviderStatus, hs, hc]
                refine ⟨?_, ?_, ?_⟩
                · simp [processPayment, runPaymentSaga, paySagaStep1,
                    paySagaStep2, paySagaStep3, emptyPayWorld, hmap]
                · simp [processPayment, runPaymentSaga, paySagaStep1,
                    paySagaStep2, paySagaStep3, emptyPayWorld, hmap]
                · simp [runPaymentSaga, paySagaStep1, paySagaStep2,
                    paySagaStep3, emptyPayWorld]
          | some u =>
              constructor
              · by_cases hv : (validateWebhookUrl isProduction
                    (some u)).valid = true
                · simp [processPayment, runPaymentSaga, paySagaStep1,
                    paySagaStep2, paySagaStep3, emptyPayWorld,
                    queueWebhook, hv]
                · simp [processPayment, runPaymentSaga, paySagaStep1,
                    paySagaStep2, paySagaStep3, paySagaStep1Compensate,
                    emptyPayWorld, queueWebhook, hv]
              · intro r' hr hs hc hurl
                cases hurl

/-- Witness for C10: a provider response `{success := true, status :=
pending}` leaves the payment pending and the result's success flag false. -/
theorem process_payment_success_iff_witness :
    (processPayment true 5 (.responds ⟨true, .pending, "ch_2", none⟩)
      ⟨none⟩).1.success = false ∧
    ((processPayment true 5 (.responds ⟨true, .pending, "ch_2", none⟩)
      ⟨none⟩).2.payment.map fun p => p.status) =
      some PaymentStatus.pending := by
  have h := (process_payment_success_iff true 5
    (.responds ⟨true, .pending, "ch_2", none⟩) ⟨none⟩).2
    ⟨true, .pending, "ch_2", none⟩ rfl rfl (by decide) rfl
  exact ⟨h.1, h.2.1⟩

end PaymentGateway
